import Mathlib

/-!
Verification of the chat-visualization data pipeline of the cfo-vision-buddy
front end (`src/components/ChatVisualization.tsx`).

The development shallowly embeds the relevant JavaScript/TypeScript code:

* `JVal` models dynamically typed JavaScript values (including `null`,
  `undefined` and `NaN`); property access is modelled in the `Except Unit`
  monad because reading a property of `null`/`undefined` throws a
  `TypeError`, and every other failure mode of the transforms goes through
  such an access.
* The four shape normalizers `transformComplianceData`, `transformExpenseData`,
  `transformIncomeData` and `transformReportingData`, and the `requestType`
  dispatch of `processData`, are translated statement by statement.
* A small backtracking regular-expression engine (`Rx`, `mrx`, `execAll`)
  reproduces the semantics of the JavaScript global-`exec` scanning loops used
  by the text extractors `parseMarkdownTables`, `parseComplianceData` and
  `extractMetricsFromText`, which are then translated on top of it.

Numbers are modelled by `ℚ`; the numeric strings handled by the pipeline are
plain decimal literals, for which `parseFloat` is exact.  Strings are handled
as `List Char` inside the extractors so that every operation is structural.
-/

set_option maxRecDepth 20000
set_option maxHeartbeats 4000000

/-- Characters treated as whitespace by `\s`, `trim` and friends (ASCII part
of the JavaScript whitespace set, which is all the pipeline ever meets). -/
def isSpaceC (c : Char) : Bool :=
  c = ' ' || c = '\t' || c = '\n' || c = '\r' || c = '\x0b' || c = '\x0c'

/-- ASCII lower-casing, as `String.prototype.toLowerCase` acts on ASCII. -/
def jsCharLower (c : Char) : Char :=
  if 'A' ≤ c && c ≤ 'Z' then Char.ofNat (c.toNat + 32) else c

/-- Lower-case a character list. -/
def toLowerL (s : List Char) : List Char := s.map jsCharLower

/-- Lower-case a string (model of `toLowerCase` on the ASCII inputs used). -/
def jsLower (s : String) : String := ⟨toLowerL s.data⟩

/-- Model of `String.prototype.trim`. -/
def jsTrimL (s : List Char) : List Char :=
  ((s.dropWhile isSpaceC).reverse.dropWhile isSpaceC).reverse

/-- Model of `String.prototype.split` with a single-character separator:
empty pieces are kept, and splitting the empty string gives `[[]]`. -/
def splitOnCharL (sep : Char) : List Char → List (List Char)
  | [] => [[]]
  | c :: t =>
    if c = sep then [] :: splitOnCharL sep t
    else
      match splitOnCharL sep t with
      | [] => [[c]]
      | p :: ps => (c :: p) :: ps

/-- Boolean list-prefix test. -/
def isPrefixL : List Char → List Char → Bool
  | [], _ => true
  | _ :: _, [] => false
  | a :: as, b :: bs => a = b && isPrefixL as bs

/-- Model of `String.prototype.includes`: `containsL big small` is true iff
`small` occurs contiguously inside `big` (the empty list occurs anywhere). -/
def containsL (big small : List Char) : Bool :=
  if isPrefixL small big then true
  else
    match big with
    | [] => false
    | _ :: bs => containsL bs small

/-- Pair every list element with its index, starting at `n`. -/
def withIdxFrom {α : Type} : Nat → List α → List (Nat × α)
  | _, [] => []
  | n, x :: t => (n, x) :: withIdxFrom (n + 1) t

/-- Pair every list element with its index, starting at 0. -/
def withIdx {α : Type} (xs : List α) : List (Nat × α) := withIdxFrom 0 xs

/-- Decimal digits to a natural number. -/
def digitsToNat (s : List Char) : Nat :=
  s.foldl (fun acc c => acc * 10 + (c.toNat - '0'.toNat)) 0

/-- Model of `parseFloat` restricted to the character data this pipeline can
feed it: leading whitespace, an optional sign, an integer part, an optional
fractional part, and arbitrary trailing junk which is ignored.  Returns
`none` exactly when `parseFloat` would return `NaN` (no digits at all).
Exponents cannot occur: callers first strip the input down to digits, dots,
commas and minus signs. -/
def jsParseFloat (s0 : List Char) : Option ℚ :=
  let s1 := s0.dropWhile isSpaceC
  let (neg, s2) : Bool × List Char :=
    match s1 with
    | '-' :: t => (true, t)
    | '+' :: t => (false, t)
    | _ => (false, s1)
  let ds := s2.takeWhile Char.isDigit
  let rest := s2.drop ds.length
  let fs :=
    match rest with
    | '.' :: t => t.takeWhile Char.isDigit
    | _ => []
  if ds.isEmpty && fs.isEmpty then none
  else
    let mantissa : Nat := digitsToNat ds * 10 ^ fs.length + digitsToNat fs
    let m : Int := if neg then -(mantissa : Int) else (mantissa : Int)
    some (mkRat m (10 ^ fs.length))

/-! ## The JavaScript value model -/

/-- Dynamically typed JavaScript values as the normalizers see them.  `nan`
is kept separate from `num` because `typeof NaN === 'number'` while its
truthiness and arithmetic differ. -/
inductive JVal : Type where
  | null
  | undefined
  | nan
  | bool (b : Bool)
  | num (q : ℚ)
  | str (s : String)
  | arr (elems : List JVal)
  | obj (fields : List (String × JVal))

/-- JavaScript truthiness. -/
def truthy : JVal → Bool
  | .null => false
  | .undefined => false
  | .nan => false
  | .bool b => b
  | .num q => !(q == 0)
  | .str s => !s.data.isEmpty
  | .arr _ => true
  | .obj _ => true

/-- `null` or `undefined` — the values whose property access throws. -/
def nullish : JVal → Bool
  | .null => true
  | .undefined => true
  | _ => false

/-- `typeof v === 'number'` (true for `NaN` as well). -/
def isNumT : JVal → Bool
  | .num _ => true
  | .nan => true
  | _ => false

/-- `Array.isArray`. -/
def isArr : JVal → Bool
  | .arr _ => true
  | _ => false

/-- `typeof v === 'object'` (true for plain objects, arrays and `null`). -/
def isObjT : JVal → Bool
  | .obj _ => true
  | .arr _ => true
  | .null => true
  | _ => false

/-- Is the value `undefined`? -/
def isUndefined : JVal → Bool
  | .undefined => true
  | _ => false

/-- First-match association-list lookup (JavaScript object keys are unique). -/
def jLookup : List (String × JVal) → String → Option JVal
  | [], _ => none
  | (k', v) :: t, k => if k' = k then some v else jLookup t k

/-- Property read on a non-nullish value: objects by key, the `length` of
arrays and strings, `undefined` everywhere else. -/
def jGetD : JVal → String → JVal
  | .obj fs, f => (jLookup fs f).getD .undefined
  | .arr xs, f => if f = "length" then .num xs.length else .undefined
  | .str s, f => if f = "length" then .num s.data.length else .undefined
  | _, _ => .undefined

/-- Plain property access `v.f`: throws (`.error ()`) exactly on `null` and
`undefined` receivers. -/
def jGet (v : JVal) (f : String) : Except Unit JVal :=
  if nullish v then .error () else .ok (jGetD v f)

/-- Optional-chaining access `v?.f`. -/
def jGetOpt (v : JVal) (f : String) : JVal :=
  if nullish v then .undefined else jGetD v f

/-- JavaScript `a || b`. -/
def jOr (a b : JVal) : JVal := if truthy a then a else b

/-- Lookup on an object value (used to state properties of results). -/
def jvLookup : JVal → String → Option JVal
  | .obj fs, k => jLookup fs k
  | _, _ => none

/-- The elements of an array value (callers guard with `isArr`). -/
def elemsD : JVal → List JVal
  | .arr xs => xs
  | _ => []

/-- Property assignment `o[k] = v` on a field list: updates in place when the
key exists (keeping its position, as JavaScript does), else appends. -/
def jsSet : List (String × JVal) → String → JVal → List (String × JVal)
  | [], k, v => [(k, v)]
  | (k', v') :: t, k, v =>
    if k' = k then (k', v) :: t else (k', v') :: jsSet t k v

/-- Conditional assignment: the `if (probe) { result.key = val }` statement
shape used throughout the normalizers for non-throwing branches. -/
def condSet (fs : List (String × JVal)) (c : Bool) (k : String) (v : JVal) :
    List (String × JVal) :=
  if c then jsSet fs k v else fs

/-- Structural `mapM` in `Except Unit` (JavaScript `Array.prototype.map`,
which aborts the whole call when the callback throws). -/
def mapME {α β : Type} (f : α → Except Unit β) : List α → Except Unit (List β)
  | [] => .ok []
  | x :: t => do
    let y ← f x
    let ys ← mapME f t
    pure (y :: ys)

/-- `map` with the element index, in `Except Unit`. -/
def mapIdxM (f : Nat → JVal → Except Unit JVal) (xs : List JVal) :
    Except Unit (List JVal) :=
  mapME (fun p => f p.1 p.2) (withIdx xs)

/-- The `if (field && Array.isArray(field)) { result.key = field.map(cb) }`
statement shape, for callbacks that access element properties (and can
therefore throw). -/
def arrBlockM (fs : List (String × JVal)) (v : JVal) (key : String)
    (build : List JVal → Except Unit (List JVal)) :
    Except Unit (List (String × JVal)) :=
  if truthy v && isArr v then do
    let ms ← build (elemsD v)
    pure (jsSet fs key (.arr ms))
  else pure fs

/-- `Object.entries` (arrays yield their index/value pairs). -/
def jEntries : JVal → List (String × JVal)
  | .obj fs => fs
  | .arr xs => (withIdx xs).map (fun p => (toString p.1, p.2))
  | _ => []

/-- `typeof value === 'number' ? value : 0`. -/
def numOr0 (v : JVal) : JVal := if isNumT v then v else .num 0

/-- JavaScript `ToNumber` as far as the pipeline exercises it.  String and
object coercions are modelled as non-numeric (`NaN`); the transforms only
subtract values that are numbers, `undefined`, or absent in practice. -/
def jToNumber : JVal → Option ℚ
  | .num q => some q
  | .bool b => some (if b then 1 else 0)
  | .null => some 0
  | _ => none

/-- JavaScript subtraction `a - b` (never throws; non-numbers give `NaN`). -/
def jSub (a b : JVal) : JVal :=
  match jToNumber a, jToNumber b with
  | some x, some y => .num (x - y)
  | _, _ => .nan

/-! ## The four shape normalizers -/

/-- Bar dataset of the new-format compliance branch. -/
def complianceNewBar (ct nct : JVal) : JVal :=
  .arr [
    .obj [("name", .str "Compliant"), ("count", jOr ct (.num 0)),
          ("value", jOr ct (.num 0))],
    .obj [("name", .str "Non-Compliant"), ("count", jOr nct (.num 0)),
          ("value", jOr nct (.num 0))]]

/-- Pie dataset of the new-format compliance branch. -/
def complianceNewPie (ct nct : JVal) : JVal :=
  .arr [
    .obj [("name", .str "Compliant Transactions"), ("value", jOr ct (.num 0))],
    .obj [("name", .str "Non-Compliant Transactions"), ("value", jOr nct (.num 0))]]

/-- Legacy compliant-transaction entry (element is used directly, no property
access). -/
def compliantLegacyItem (i : Nat) (t : JVal) : JVal :=
  .obj [("name", jOr t (.str ("Transaction " ++ toString (i + 1)))),
        ("count", .num 1)]

/-- Legacy risk entry. -/
def riskItem (r : JVal) : JVal :=
  .obj [("name", jOr r (.str "Unknown Risk")), ("count", .num 1)]

/-- Flagged-transaction entry (reads `transactionId` and `description`). -/
def flaggedItem (i : Nat) (item : JVal) : Except Unit JVal := do
  let tid ← jGet item "transactionId"
  let d ← jGet item "description"
  pure (.obj [("name", jOr tid (.str ("Transaction " ++ toString (i + 1)))),
              ("count", .num 1),
              ("description", jOr d (.str "Flagged transaction"))])

/-- Non-compliant-vendor entry. -/
def vendorItem (item : JVal) : Except Unit JVal := do
  let vn ← jGet item "vendorName"
  let tids ← jGet item "transactionIds"
  pure (.obj [("name", jOr vn (.str "Unknown Vendor")),
              ("count", if truthy tids then jGetOpt tids "length" else .num 1),
              ("transactionIds", jOr tids (.arr []))])

/-- Missing-documentation entry. -/
def missingItem (i : Nat) (item : JVal) : Except Unit JVal := do
  let tid ← jGet item "transactionId"
  let m ← jGet item "missing"
  pure (.obj [("name", jOr tid (.str ("Transaction " ++ toString (i + 1)))),
              ("count", .num 1),
              ("missing", jOr m (.str "Documentation"))])

/-- Manager-verification entry. -/
def verifItem (i : Nat) (item : JVal) : Except Unit JVal := do
  let tid ← jGet item "transactionId"
  let rs ← jGet item "reason"
  pure (.obj [("name", jOr tid (.str ("Transaction " ++ toString (i + 1)))),
              ("count", .num 1),
              ("reason", jOr rs (.str "Verification required"))])

/-- The `if (field?.length) summaryData.push({name, value: field.length})`
steps building the compliance summary pie data. -/
def summaryPush (label : String) (v : JVal) (acc : List JVal) : List JVal :=
  if truthy (jGetOpt v "length") then
    acc ++ [.obj [("name", .str label), ("value", jGetOpt v "length")]]
  else acc

/-- `transformComplianceData` of `ChatVisualization.tsx`. -/
def transformComplianceData (g : JVal) : Except Unit JVal := do
  let ct ← jGet g "compliantTransactions"
  let nct ← jGet g "nonCompliantTransactions"
  if isNumT ct || isNumT nct then
    pure (.obj [("complianceData", .bool true),
                ("complianceBarData", complianceNewBar ct nct),
                ("compliancePieData", complianceNewPie ct nct)])
  else do
    let r := condSet [("complianceData", JVal.bool true)]
      (truthy ct && isArr ct) "compliantTransactionsData"
      (.arr ((withIdx (elemsD ct)).map (fun p => compliantLegacyItem p.1 p.2)))
    let risks ← jGet g "risks"
    let r := condSet r (truthy risks && isArr risks) "risksData"
      (.arr ((elemsD risks).map riskItem))
    let fl ← jGet g "flaggedTransactions"
    let r ← arrBlockM r fl "flaggedTransactionsData" (mapIdxM flaggedItem)
    let nv ← jGet g "nonCompliantVendors"
    let r ← arrBlockM r nv "nonCompliantVendorsData" (mapME vendorItem)
    let md ← jGet g "missingDocumentation"
    let r ← arrBlockM r md "missingDocumentationData" (mapIdxM missingItem)
    let mv ← jGet g "managerVerificationRequired"
    let r ← arrBlockM r mv "managerVerificationData" (mapIdxM verifItem)
    let sd := summaryPush "Compliant Transactions" ct []
    let sd := summaryPush "Risks Detected" risks sd
    let sd := summaryPush "Flagged Transactions" fl sd
    let sd := summaryPush "Non-Compliant Vendors" nv sd
    let sd := summaryPush "Missing Documentation" md sd
    let sd := summaryPush "Needs Verification" mv sd
    let r := condSet r (0 < sd.length) "complianceSummaryData" (.arr sd)
    pure (.obj r)

/-- Entry built from a keyed object (`expensesByCategory`, `incomeByChannel`,
`incomeBySource`): `{name, value, amount}` with non-numbers coerced to 0. -/
def keyedEntry (p : String × JVal) : JVal :=
  .obj [("name", .str p.1), ("value", numOr0 p.2), ("amount", numOr0 p.2)]

/-- Legacy expense-category entry. -/
def expCatLegacyItem (c : JVal) : Except Unit JVal := do
  let n ← jGet c "name"
  let cat ← jGet c "category"
  let am ← jGet c "amount"
  let v ← jGet c "value"
  pure (.obj [("name", jOr n (jOr cat (.str "Unknown"))),
              ("value", jOr am (jOr v (.num 0))),
              ("amount", jOr am (jOr v (.num 0)))])

/-- Expense time-series entry. -/
def expTimeSeriesItem (it : JVal) : Except Unit JVal := do
  let d ← jGet it "date"
  let mo ← jGet it "month"
  let pe ← jGet it "period"
  let am ← jGet it "amount"
  let ex ← jGet it "expense"
  let v ← jGet it "value"
  let cat ← jGet it "category"
  pure (.obj [("date", jOr d (jOr mo pe)),
              ("expense", jOr am (jOr ex (jOr v (.num 0)))),
              ("category", jOr cat (.str "Other"))])

/-- Top-expense entry. -/
def topExpenseItem (e : JVal) : Except Unit JVal := do
  let n ← jGet e "name"
  let de ← jGet e "description"
  let am ← jGet e "amount"
  let v ← jGet e "value"
  pure (.obj [("name", jOr n (jOr de (.str "Expense"))),
              ("value", jOr am (jOr v (.num 0)))])

/-- `transformExpenseData` of `ChatVisualization.tsx`. -/
def transformExpenseData (g : JVal) : Except Unit JVal := do
  let ebc ← jGet g "expensesByCategory"
  let r := condSet [("expenseData", JVal.bool true)]
    (truthy ebc && isObjT ebc) "expenseCategoryData"
    (.arr ((jEntries ebc).map keyedEntry))
  let te ← jGet g "totalExpenses"
  let r := condSet r (!isUndefined te) "totalExpenses" te
  let cats ← jGet g "categories"
  let r ← arrBlockM r cats "expenseCategoryData" (mapME expCatLegacyItem)
  let ts ← jGet g "timeSeries"
  let r ← arrBlockM r ts "timeSeriesData" (mapME expTimeSeriesItem)
  let tops ← jGet g "topExpenses"
  let r ← arrBlockM r tops "topExpensesData" (mapME topExpenseItem)
  pure (.obj r)

/-- Legacy income-source entry. -/
def incomeSourceLegacyItem (s : JVal) : Except Unit JVal := do
  let n ← jGet s "name"
  let so ← jGet s "source"
  let am ← jGet s "amount"
  let v ← jGet s "value"
  pure (.obj [("name", jOr n (jOr so (.str "Unknown"))),
              ("value", jOr am (jOr v (.num 0))),
              ("amount", jOr am (jOr v (.num 0)))])

/-- Income time-series entry. -/
def incomeTimeSeriesItem (it : JVal) : Except Unit JVal := do
  let d ← jGet it "date"
  let mo ← jGet it "month"
  let pe ← jGet it "period"
  let am ← jGet it "amount"
  let inc ← jGet it "income"
  let v ← jGet it "value"
  let so ← jGet it "source"
  pure (.obj [("date", jOr d (jOr mo pe)),
              ("income", jOr am (jOr inc (jOr v (.num 0)))),
              ("source", jOr so (.str "Other"))])

/-- Legacy revenue-channel entry. -/
def channelLegacyItem (c : JVal) : Except Unit JVal := do
  let n ← jGet c "name"
  let ch ← jGet c "channel"
  let am ← jGet c "amount"
  let v ← jGet c "value"
  pure (.obj [("name", jOr n (jOr ch (.str "Unknown"))),
              ("value", jOr am (jOr v (.num 0)))])

/-- `transformIncomeData` of `ChatVisualization.tsx`. -/
def transformIncomeData (g : JVal) : Except Unit JVal := do
  let ibc ← jGet g "incomeByChannel"
  let r := condSet [("incomeData", JVal.bool true)]
    (truthy ibc && isObjT ibc) "revenueChannelData"
    (.arr ((jEntries ibc).map keyedEntry))
  let ibs ← jGet g "incomeBySource"
  let r := condSet r (truthy ibs && isObjT ibs) "incomeSourceData"
    (.arr ((jEntries ibs).map keyedEntry))
  let ti ← jGet g "totalIncome"
  let r := condSet r (!isUndefined ti) "totalIncome" ti
  let srcs ← jGet g "sources"
  let r ← arrBlockM r srcs "incomeSourceData" (mapME incomeSourceLegacyItem)
  let ts ← jGet g "timeSeries"
  let r ← arrBlockM r ts "timeSeriesData" (mapME incomeTimeSeriesItem)
  let chs ← jGet g "channels"
  let r ← arrBlockM r chs "revenueChannelData" (mapME channelLegacyItem)
  pure (.obj r)

/-- Reporting time-series entry (with the computed `net`). -/
def reportingTimeSeriesItem (it : JVal) : Except Unit JVal := do
  let d ← jGet it "date"
  let mo ← jGet it "month"
  let pe ← jGet it "period"
  let yr ← jGet it "year"
  let inc ← jGet it "income"
  let rev ← jGet it "revenue"
  let ex ← jGet it "expense"
  let exs ← jGet it "expenses"
  let ne ← jGet it "net"
  let pr ← jGet it "profit"
  pure (.obj [("date", jOr d (jOr mo (jOr pe yr))),
              ("income", jOr inc (jOr rev (.num 0))),
              ("expense", jOr ex (jOr exs (.num 0))),
              ("net", jOr ne (jOr pr
                (jSub (jOr inc (jOr rev (.num 0))) (jOr ex (jOr exs (.num 0))))))])

/-- `monthlyData` entry. -/
def monthlyItem (it : JVal) : Except Unit JVal := do
  let mo ← jGet it "month"
  let d ← jGet it "date"
  let inc ← jGet it "income"
  let rev ← jGet it "revenue"
  let exs ← jGet it "expenses"
  let ex ← jGet it "expense"
  let ne ← jGet it "net"
  let cf ← jGet it "cashFlow"
  pure (.obj [("date", jOr mo d),
              ("income", jOr inc (jOr rev (.num 0))),
              ("expense", jOr exs (jOr ex (.num 0))),
              ("net", jOr ne (jOr cf (jSub (jOr inc (.num 0)) (jOr exs (.num 0)))))])

/-- `yearlyData` entry. -/
def yearlyItem (it : JVal) : Except Unit JVal := do
  let yr ← jGet it "year"
  let d ← jGet it "date"
  let inc ← jGet it "income"
  let rev ← jGet it "revenue"
  let exs ← jGet it "expenses"
  let ex ← jGet it "expense"
  let ne ← jGet it "net"
  let cf ← jGet it "cashFlow"
  pure (.obj [("date", jOr yr d),
              ("income", jOr inc (jOr rev (.num 0))),
              ("expense", jOr exs (jOr ex (.num 0))),
              ("net", jOr ne (jOr cf (jSub (jOr inc (.num 0)) (jOr exs (.num 0)))))])

/-- Reporting category entry from the keyed-object shape. -/
def reportCatEntry (p : String × JVal) : JVal :=
  .obj [("name", .str p.1), ("value", numOr0 p.2)]

/-- Reporting category entry from the legacy array shape. -/
def reportCatLegacyItem (c : JVal) : Except Unit JVal := do
  let n ← jGet c "name"
  let cat ← jGet c "category"
  let am ← jGet c "amount"
  let v ← jGet c "value"
  pure (.obj [("name", jOr n (jOr cat (.str "Unknown"))),
              ("value", jOr am (jOr v (.num 0)))])

/-- `transformReportingData` of `ChatVisualization.tsx`. -/
def transformReportingData (g : JVal) : Except Unit JVal := do
  let m ← jGet g "metrics"
  let r := condSet [("reportingData", JVal.bool true)] (truthy m) "metrics" m
  let ts ← jGet g "timeSeries"
  let r ← arrBlockM r ts "timeSeriesData" (mapME reportingTimeSeriesItem)
  let md ← jGet g "monthlyData"
  let r ← arrBlockM r md "timeSeriesData" (mapME monthlyItem)
  let yd ← jGet g "yearlyData"
  let r ← arrBlockM r yd "yearlyData" (mapME yearlyItem)
  let cbt ← jGet g "categoriesByType"
  let r := condSet r (truthy cbt && isObjT cbt) "categoryData"
    (.arr ((jEntries cbt).map reportCatEntry))
  let cats ← jGet g "categories"
  let r ← arrBlockM r cats "categoryData" (mapME reportCatLegacyItem)
  let cmp ← jGet g "comparison"
  let r := condSet r (truthy cmp && isArr cmp) "comparisonData" cmp
  let tr ← jGet g "totalRevenue"
  let r := condSet r (!isUndefined tr) "totalRevenue" tr
  let te ← jGet g "totalExpenses"
  let r := condSet r (!isUndefined te) "totalExpenses" te
  let np ← jGet g "netProfit"
  let r := condSet r (!isUndefined np) "netProfit" np
  pure (.obj r)

/-- The `switch (data.requestType.toLowerCase())` dispatch of `processData`:
the four recognised types select their normalizer, anything else falls back
to the compliance normalizer. -/
def dispatchNormalizer (requestType : String) (g : JVal) : Except Unit JVal :=
  let t := jsLower requestType
  if t = "compliance" then transformComplianceData g
  else if t = "expense" then transformExpenseData g
  else if t = "income" then transformIncomeData g
  else if t = "reporting" then transformReportingData g
  else transformComplianceData g

/-! ## Lemmas about the value model and the normalizer building blocks -/

theorem exc_ok_bind {α β : Type} (a : α) (k : α → Except Unit β) :
    (Except.ok a >>= k) = k a := rfl

theorem exc_error_bind {α β : Type} (k : α → Except Unit β) :
    ((Except.error () : Except Unit α) >>= k) = .error () := rfl

/-- A computation that returned normally (did not throw). -/
def retOk {α : Type} (e : Except Unit α) : Prop := ∃ a, e = .ok a

theorem retOk_pure {α : Type} (a : α) : retOk (pure a : Except Unit α) := ⟨a, rfl⟩

theorem retOk_bind {α β : Type} {a : Except Unit α} {k : α → Except Unit β}
    (h : retOk a) (hk : ∀ x, retOk (k x)) : retOk (a >>= k) := by
  obtain ⟨x, hx⟩ := h
  rw [hx, exc_ok_bind]
  exact hk x

theorem exc_bind_eq_ok {α β : Type} {a : Except Unit α} {k : α → Except Unit β}
    {r : β} (h : (a >>= k) = .ok r) : ∃ x, a = .ok x ∧ k x = .ok r := by
  cases a with
  | error e => rw [exc_error_bind] at h; cases h
  | ok x => exact ⟨x, rfl, by rw [exc_ok_bind] at h; exact h⟩

theorem jGet_ok {v : JVal} (h : nullish v = false) (f : String) :
    jGet v f = .ok (jGetD v f) := by
  simp [jGet, h]

theorem jGet_not_nullish {v : JVal} {f : String} {w : JVal}
    (h : jGet v f = .ok w) : nullish v = false := by
  by_cases hv : nullish v = true
  · rw [jGet, if_pos hv] at h; cases h
  · exact Bool.not_eq_true _ ▸ hv

theorem jLookup_jsSet_self (fs : List (String × JVal)) (k : String) (v : JVal) :
    jLookup (jsSet fs k v) k = some v := by
  induction fs with
  | nil => simp [jsSet, jLookup]
  | cons p t ih =>
    obtain ⟨k', v'⟩ := p
    by_cases h : k' = k
    · simp [jsSet, h, jLookup]
    · simp [jsSet, h, jLookup, ih]

theorem jLookup_jsSet_ne (fs : List (String × JVal)) {k k' : String} (v : JVal)
    (h : k' ≠ k) : jLookup (jsSet fs k v) k' = jLookup fs k' := by
  induction fs with
  | nil =>
    have hk : k ≠ k' := fun hh => h hh.symm
    simp [jsSet, jLookup, hk]
  | cons p t ih =>
    obtain ⟨k'', v''⟩ := p
    rw [jsSet]
    by_cases hk : k'' = k
    · rw [if_pos hk]
      subst hk
      have hne : ¬(k'' = k') := fun hh => h hh.symm
      rw [jLookup, jLookup, if_neg hne, if_neg hne]
    · rw [if_neg hk, jLookup, jLookup]
      by_cases hk2 : k'' = k'
      · rw [if_pos hk2, if_pos hk2]
      · rw [if_neg hk2, if_neg hk2, ih]

theorem jLookup_condSet_ne (fs : List (String × JVal)) (c : Bool) (k : String)
    (v : JVal) {k' : String} (h : k' ≠ k) :
    jLookup (condSet fs c k v) k' = jLookup fs k' := by
  unfold condSet
  split
  · exact jLookup_jsSet_ne fs v h
  · rfl

theorem arrBlockM_lookup_ne {fs : List (String × JVal)} {v : JVal} {key : String}
    {build : List JVal → Except Unit (List JVal)} {fs' : List (String × JVal)}
    {k' : String} (h : k' ≠ key) (hr : arrBlockM fs v key build = .ok fs') :
    jLookup fs' k' = jLookup fs k' := by
  unfold arrBlockM at hr
  split at hr
  · obtain ⟨ms, hms, hp⟩ := exc_bind_eq_ok hr
    cases hp
    exact jLookup_jsSet_ne fs _ h
  · cases hr
    rfl

theorem arrBlockM_eq_set {fs : List (String × JVal)} {xs : List JVal}
    {key : String} {build : List JVal → Except Unit (List JVal)}
    {ms : List JVal} (hm : build xs = .ok ms) :
    arrBlockM fs (.arr xs) key build = .ok (jsSet fs key (.arr ms)) := by
  unfold arrBlockM
  rw [if_pos (show (truthy (JVal.arr xs) && isArr (JVal.arr xs)) = true from rfl)]
  show (build xs >>= fun ms => pure (jsSet fs key (JVal.arr ms)))
    = Except.ok (jsSet fs key (JVal.arr ms))
  rw [hm]
  rfl

/-! ## Safety of the normalizers on nullish-free input -/

/-- Elements of an array value are free of `null`/`undefined`. -/
def elemsSafe : JVal → Bool
  | .arr xs => xs.all (fun x => !nullish x)
  | _ => true

/-- A `graphData` value on which the normalizers cannot throw: it is not
itself nullish, and no array stored in one of its fields contains a nullish
element (the only property reads the normalizers perform on non-`graphData`
receivers are on such elements). -/
def safeArg : JVal → Bool
  | .obj fs => fs.all (fun p => elemsSafe p.2)
  | .null => false
  | .undefined => false
  | _ => true

theorem safeArg_not_nullish {g : JVal} (h : safeArg g = true) :
    nullish g = false := by
  cases g <;> simp_all [safeArg, nullish]

theorem jLookup_mem {fs : List (String × JVal)} {f : String} {v : JVal}
    (h : jLookup fs f = some v) : ∃ k, (k, v) ∈ fs := by
  induction fs with
  | nil => simp [jLookup] at h
  | cons p t ih =>
    obtain ⟨k', v'⟩ := p
    rw [jLookup] at h
    split at h
    · cases h
      exact ⟨k', by simp⟩
    · obtain ⟨k, hk⟩ := ih h
      exact ⟨k, by simp [hk]⟩

theorem jGetD_elems_safe {g : JVal} (h : safeArg g = true) (f : String) :
    ∀ x ∈ elemsD (jGetD g f), nullish x = false := by
  intro x hx
  cases g with
  | obj fs =>
    rw [jGetD] at hx
    cases hl : jLookup fs f with
    | none => rw [hl] at hx; simp [elemsD] at hx
    | some v =>
      rw [hl] at hx
      obtain ⟨k, hk⟩ := jLookup_mem hl
      have hv : elemsSafe v = true := by
        rw [safeArg] at h
        exact (List.all_eq_true.mp h) (k, v) hk
      cases v with
      | arr xs =>
        rw [elemsSafe] at hv
        have := (List.all_eq_true.mp hv) x hx
        simpa using this
      | null => simp [elemsD] at hx
      | undefined => simp [elemsD] at hx
      | nan => simp [elemsD] at hx
      | bool b => simp [elemsD] at hx
      | num q => simp [elemsD] at hx
      | str s => simp [elemsD] at hx
      | obj fs2 => simp [elemsD] at hx
  | arr xs =>
    rw [jGetD] at hx
    split at hx <;> simp [elemsD] at hx
  | str s =>
    rw [jGetD] at hx
    split at hx <;> simp [elemsD] at hx
  | null => simp [safeArg] at h
  | undefined => simp [safeArg] at h
  | nan => simp [jGetD, elemsD] at hx
  | bool b => simp [jGetD, elemsD] at hx
  | num q => simp [jGetD, elemsD] at hx

theorem mem_withIdxFrom {α : Type} {p : Nat × α} {n : Nat} {xs : List α}
    (h : p ∈ withIdxFrom n xs) : p.2 ∈ xs := by
  induction xs generalizing n with
  | nil => simp [withIdxFrom] at h
  | cons x t ih =>
    rw [withIdxFrom] at h
    rcases List.mem_cons.mp h with h1 | h2
    · simp [h1]
    · exact List.mem_cons_of_mem _ (ih h2)

theorem mapME_ok {α β : Type} {f : α → Except Unit β} {xs : List α}
    (h : ∀ x ∈ xs, retOk (f x)) : retOk (mapME f xs) := by
  induction xs with
  | nil => exact ⟨[], rfl⟩
  | cons x t ih =>
    rw [mapME]
    refine retOk_bind (h x (by simp)) (fun y => ?_)
    exact retOk_bind (ih (fun a ha => h a (by simp [ha]))) (fun ys => retOk_pure _)

theorem mapIdxM_ok {f : Nat → JVal → Except Unit JVal} {xs : List JVal}
    (h : ∀ x ∈ xs, ∀ i, retOk (f i x)) : retOk (mapIdxM f xs) :=
  mapME_ok (fun p hp => h p.2 (mem_withIdxFrom hp) p.1)

theorem arrBlockM_ok {fs : List (String × JVal)} {v : JVal} {key : String}
    {build : List JVal → Except Unit (List JVal)}
    (hb : ∀ xs : List JVal, (∀ x ∈ xs, nullish x = false) → retOk (build xs))
    (hsafe : ∀ x ∈ elemsD v, nullish x = false) :
    retOk (arrBlockM fs v key build) := by
  unfold arrBlockM
  split
  · exact retOk_bind (hb _ hsafe) (fun ms => retOk_pure _)
  · exact retOk_pure _

theorem flaggedItem_ok {item : JVal} (h : nullish item = false) (i : Nat) :
    retOk (flaggedItem i item) := by
  simp only [flaggedItem, jGet_ok h, exc_ok_bind]
  exact retOk_pure _

theorem vendorItem_ok {item : JVal} (h : nullish item = false) :
    retOk (vendorItem item) := by
  simp only [vendorItem, jGet_ok h, exc_ok_bind]
  exact retOk_pure _

theorem missingItem_ok {item : JVal} (h : nullish item = false) (i : Nat) :
    retOk (missingItem i item) := by
  simp only [missingItem, jGet_ok h, exc_ok_bind]
  exact retOk_pure _

theorem verifItem_ok {item : JVal} (h : nullish item = false) (i : Nat) :
    retOk (verifItem i item) := by
  simp only [verifItem, jGet_ok h, exc_ok_bind]
  exact retOk_pure _

theorem expCatLegacyItem_ok {c : JVal} (h : nullish c = false) :
    retOk (expCatLegacyItem c) := by
  simp only [expCatLegacyItem, jGet_ok h, exc_ok_bind]
  exact retOk_pure _

theorem expTimeSeriesItem_ok {c : JVal} (h : nullish c = false) :
    retOk (expTimeSeriesItem c) := by
  simp only [expTimeSeriesItem, jGet_ok h, exc_ok_bind]
  exact retOk_pure _

theorem topExpenseItem_ok {c : JVal} (h : nullish c = false) :
    retOk (topExpenseItem c) := by
  simp only [topExpenseItem, jGet_ok h, exc_ok_bind]
  exact retOk_pure _

theorem incomeSourceLegacyItem_ok {c : JVal} (h : nullish c = false) :
    retOk (incomeSourceLegacyItem c) := by
  simp only [incomeSourceLegacyItem, jGet_ok h, exc_ok_bind]
  exact retOk_pure _

theorem incomeTimeSeriesItem_ok {c : JVal} (h : nullish c = false) :
    retOk (incomeTimeSeriesItem c) := by
  simp only [incomeTimeSeriesItem, jGet_ok h, exc_ok_bind]
  exact retOk_pure _

theorem channelLegacyItem_ok {c : JVal} (h : nullish c = false) :
    retOk (channelLegacyItem c) := by
  simp only [channelLegacyItem, jGet_ok h, exc_ok_bind]
  exact retOk_pure _

theorem reportingTimeSeriesItem_ok {c : JVal} (h : nullish c = false) :
    retOk (reportingTimeSeriesItem c) := by
  simp only [reportingTimeSeriesItem, jGet_ok h, exc_ok_bind]
  exact retOk_pure _

theorem monthlyItem_ok {c : JVal} (h : nullish c = false) :
    retOk (monthlyItem c) := by
  simp only [monthlyItem, jGet_ok h, exc_ok_bind]
  exact retOk_pure _

theorem yearlyItem_ok {c : JVal} (h : nullish c = false) :
    retOk (yearlyItem c) := by
  simp only [yearlyItem, jGet_ok h, exc_ok_bind]
  exact retOk_pure _

theorem reportCatLegacyItem_ok {c : JVal} (h : nullish c = false) :
    retOk (reportCatLegacyItem c) := by
  simp only [reportCatLegacyItem, jGet_ok h, exc_ok_bind]
  exact retOk_pure _

theorem transformComplianceData_ok {g : JVal} (h : safeArg g = true) :
    retOk (transformComplianceData g) := by
  have hg := safeArg_not_nullish h
  unfold transformComplianceData
  simp only [jGet_ok hg, exc_ok_bind]
  split
  · exact retOk_pure _
  · refine retOk_bind (arrBlockM_ok (fun xs hxs => mapIdxM_ok
      (fun x hx i => flaggedItem_ok (hxs x hx) i)) (jGetD_elems_safe h _))
      (fun r2 => ?_)
    refine retOk_bind (arrBlockM_ok (fun xs hxs => mapME_ok
      (fun x hx => vendorItem_ok (hxs x hx))) (jGetD_elems_safe h _))
      (fun r3 => ?_)
    refine retOk_bind (arrBlockM_ok (fun xs hxs => mapIdxM_ok
      (fun x hx i => missingItem_ok (hxs x hx) i)) (jGetD_elems_safe h _))
      (fun r4 => ?_)
    refine retOk_bind (arrBlockM_ok (fun xs hxs => mapIdxM_ok
      (fun x hx i => verifItem_ok (hxs x hx) i)) (jGetD_elems_safe h _))
      (fun r5 => ?_)
    exact retOk_pure _

theorem transformExpenseData_ok {g : JVal} (h : safeArg g = true) :
    retOk (transformExpenseData g) := by
  have hg := safeArg_not_nullish h
  unfold transformExpenseData
  simp only [jGet_ok hg, exc_ok_bind]
  refine retOk_bind (arrBlockM_ok (fun xs hxs => mapME_ok
    (fun x hx => expCatLegacyItem_ok (hxs x hx))) (jGetD_elems_safe h _))
    (fun r2 => ?_)
  refine retOk_bind (arrBlockM_ok (fun xs hxs => mapME_ok
    (fun x hx => expTimeSeriesItem_ok (hxs x hx))) (jGetD_elems_safe h _))
    (fun r3 => ?_)
  refine retOk_bind (arrBlockM_ok (fun xs hxs => mapME_ok
    (fun x hx => topExpenseItem_ok (hxs x hx))) (jGetD_elems_safe h _))
    (fun r4 => ?_)
  exact retOk_pure _

theorem transformIncomeData_ok {g : JVal} (h : safeArg g = true) :
    retOk (transformIncomeData g) := by
  have hg := safeArg_not_nullish h
  unfold transformIncomeData
  simp only [jGet_ok hg, exc_ok_bind]
  refine retOk_bind (arrBlockM_ok (fun xs hxs => mapME_ok
    (fun x hx => incomeSourceLegacyItem_ok (hxs x hx))) (jGetD_elems_safe h _))
    (fun r2 => ?_)
  refine retOk_bind (arrBlockM_ok (fun xs hxs => mapME_ok
    (fun x hx => incomeTimeSeriesItem_ok (hxs x hx))) (jGetD_elems_safe h _))
    (fun r3 => ?_)
  refine retOk_bind (arrBlockM_ok (fun xs hxs => mapME_ok
    (fun x hx => channelLegacyItem_ok (hxs x hx))) (jGetD_elems_safe h _))
    (fun r4 => ?_)
  exact retOk_pure _

theorem transformReportingData_ok {g : JVal} (h : safeArg g = true) :
    retOk (transformReportingData g) := by
  have hg := safeArg_not_nullish h
  unfold transformReportingData
  simp only [jGet_ok hg, exc_ok_bind]
  refine retOk_bind (arrBlockM_ok (fun xs hxs => mapME_ok
    (fun x hx => reportingTimeSeriesItem_ok (hxs x hx))) (jGetD_elems_safe h _))
    (fun r2 => ?_)
  refine retOk_bind (arrBlockM_ok (fun xs hxs => mapME_ok
    (fun x hx => monthlyItem_ok (hxs x hx))) (jGetD_elems_safe h _))
    (fun r3 => ?_)
  refine retOk_bind (arrBlockM_ok (fun xs hxs => mapME_ok
    (fun x hx => yearlyItem_ok (hxs x hx))) (jGetD_elems_safe h _))
    (fun r4 => ?_)
  refine retOk_bind (arrBlockM_ok (fun xs hxs => mapME_ok
    (fun x hx => reportCatLegacyItem_ok (hxs x hx))) (jGetD_elems_safe h _))
    (fun r5 => ?_)
  exact retOk_pure _

/-! ## Claim theorems about the normalizers and the dispatch -/

theorem lookup_summary_guard {fs : List (String × JVal)} {sd xs : List JVal}
    {key : String}
    (hnone : jLookup fs key = none)
    (hl : jLookup (condSet fs (decide (0 < sd.length)) key (.arr sd)) key
      = some (.arr xs)) : xs ≠ [] := by
  by_cases hsd : 0 < sd.length
  · rw [condSet, if_pos (decide_eq_true hsd), jLookup_jsSet_self] at hl
    injection hl with h1
    injection h1 with h2
    subst h2
    exact List.length_pos.mp hsd
  · rw [condSet, if_neg (by simp only [decide_eq_true_eq]; exact hsd), hnone] at hl
    cases hl

/-- C1: the compliance normalizer's guarded summary dataset is never an empty
array: whenever the key `complianceSummaryData` is present in the output it
holds a non-empty array.  (This is the part of the claimed invariant the code
satisfies; the counterexample theorem shows the other chart keys are emitted
as empty arrays when the probed legacy array field is present but empty.) -/
theorem complianceSummary_nonempty (g r : JVal) (xs : List JVal)
    (h : transformComplianceData g = .ok r)
    (hl : jvLookup r "complianceSummaryData" = some (.arr xs)) : xs ≠ [] := by
  by_cases hgt : nullish g = true
  · unfold transformComplianceData at h
    rw [jGet, if_pos hgt, exc_error_bind] at h
    cases h
  · have hg : nullish g = false := by
      cases hb : nullish g
      · rfl
      · exact absurd hb hgt
    unfold transformComplianceData at h
    simp only [jGet_ok hg, exc_ok_bind] at h
    split at h
    · cases h
      simp [jvLookup, jLookup] at hl
    · obtain ⟨r2, hb1, h⟩ := exc_bind_eq_ok h
      obtain ⟨r3, hb2, h⟩ := exc_bind_eq_ok h
      obtain ⟨r4, hb3, h⟩ := exc_bind_eq_ok h
      obtain ⟨r5, hb4, h⟩ := exc_bind_eq_ok h
      cases h
      simp only [jvLookup] at hl
      refine lookup_summary_guard ?_ hl
      rw [arrBlockM_lookup_ne (by decide) hb4, arrBlockM_lookup_ne (by decide) hb3,
          arrBlockM_lookup_ne (by decide) hb2, arrBlockM_lookup_ne (by decide) hb1,
          jLookup_condSet_ne _ _ _ _ (by decide), jLookup_condSet_ne _ _ _ _ (by decide)]
      rfl

theorem complianceSummary_nonempty_w :
    ([JVal.obj [("name", JVal.str "Risks Detected"), ("value", JVal.num 1)]] :
      List JVal) ≠ [] :=
  complianceSummary_nonempty (JVal.obj [("risks", JVal.arr [JVal.str "r1"])])
    (JVal.obj [("complianceData", JVal.bool true),
      ("risksData", JVal.arr [JVal.obj [("name", JVal.str "r1"), ("count", JVal.num 1)]]),
      ("complianceSummaryData",
        JVal.arr [JVal.obj [("name", JVal.str "Risks Detected"), ("value", JVal.num 1)]])])
    [JVal.obj [("name", JVal.str "Risks Detected"), ("value", JVal.num 1)]]
    rfl rfl

/-- C1 counterexample: a legacy compliance payload whose `risks` field is a
present-but-empty array yields the chart key `risksData` bound to an empty
array — the probe tests only presence and array-ness, not non-emptiness, so
the claimed invariant fails. -/
theorem complianceEmptyArrayKey :
    transformComplianceData (JVal.obj [("risks", JVal.arr [])])
      = .ok (JVal.obj [("complianceData", JVal.bool true), ("risksData", JVal.arr [])])
    ∧ jvLookup (JVal.obj [("complianceData", JVal.bool true), ("risksData", JVal.arr [])])
        "risksData" = some (JVal.arr []) :=
  ⟨rfl, rfl⟩

/-- C2 (amended): the four domain normalizers return normally on every
`graphData` that is not nullish and whose array-valued fields contain no
nullish elements (`safeArg`); the text extractors are total Lean functions by
construction.  The counterexample theorem shows the unrestricted claim fails:
a nullish element inside `flaggedTransactions` makes the compliance
normalizer throw. -/
theorem normalizersNeverThrow (g : JVal) (h : safeArg g = true) :
    retOk (transformComplianceData g) ∧ retOk (transformExpenseData g) ∧
    retOk (transformIncomeData g) ∧ retOk (transformReportingData g) :=
  ⟨transformComplianceData_ok h, transformExpenseData_ok h,
   transformIncomeData_ok h, transformReportingData_ok h⟩

theorem normalizersNeverThrow_w :
    retOk (transformComplianceData (JVal.obj [("risks", JVal.arr [JVal.str "a"])])) :=
  (normalizersNeverThrow (JVal.obj [("risks", JVal.arr [JVal.str "a"])]) (by decide)).1

/-- C2 counterexample: `transformComplianceData` throws (a `TypeError` on the
`item.transactionId` read) when `flaggedTransactions` contains `null`. -/
theorem complianceThrowsOnNullItem :
    transformComplianceData (JVal.obj [("flaggedTransactions", JVal.arr [JVal.null])])
      = .error () := rfl

/-- C4 counterexample: when both the new `expensesByCategory` object and the
legacy `categories` array are present, the emitted `expenseCategoryData` is
the one derived from the legacy array (the legacy branch runs second and
overwrites the key), not the one derived from the new shape. -/
theorem expenseLegacyOverridesNew :
    transformExpenseData (JVal.obj [
        ("expensesByCategory", JVal.obj [("Food", JVal.num 10)]),
        ("categories", JVal.arr [JVal.obj [("name", JVal.str "Travel"), ("amount", JVal.num 25)]])])
      = .ok (JVal.obj [("expenseData", JVal.bool true),
          ("expenseCategoryData", JVal.arr [JVal.obj [("name", JVal.str "Travel"),
            ("value", JVal.num 25), ("amount", JVal.num 25)]])])
    ∧ JVal.arr [JVal.obj [("name", JVal.str "Travel"), ("value", JVal.num 25), ("amount", JVal.num 25)]]
        ≠ JVal.arr [JVal.obj [("name", JVal.str "Food"), ("value", JVal.num 10), ("amount", JVal.num 10)]] :=
  ⟨rfl, by simp⟩

/-- C4 (amended): in the expense and income normalizers the legacy array
shape takes precedence: whenever the legacy field (`categories` resp.
`sources`) holds an array, the output dataset for the shared chart key is the
one derived from the legacy array — it overwrites any dataset the new-shape
branch produced earlier. -/
theorem legacyShapeWins (g : JVal) (cs ss ms ms2 : List JVal) (r r2 : JVal)
    (hc : jGet g "categories" = .ok (.arr cs))
    (hm : mapME expCatLegacyItem cs = .ok ms)
    (he : transformExpenseData g = .ok r)
    (hs : jGet g "sources" = .ok (.arr ss))
    (hm2 : mapME incomeSourceLegacyItem ss = .ok ms2)
    (hi : transformIncomeData g = .ok r2) :
    jvLookup r "expenseCategoryData" = some (.arr ms)
    ∧ jvLookup r2 "incomeSourceData" = some (.arr ms2) := by
  have hg := jGet_not_nullish hc
  have hcd : jGetD g "categories" = JVal.arr cs :=
    Except.ok.inj ((jGet_ok hg "categories").symm.trans hc)
  have hsd : jGetD g "sources" = JVal.arr ss :=
    Except.ok.inj ((jGet_ok hg "sources").symm.trans hs)
  constructor
  · unfold transformExpenseData at he
    simp only [jGet_ok hg, exc_ok_bind] at he
    rw [hcd] at he
    obtain ⟨r3, hb1, he⟩ := exc_bind_eq_ok he
    rw [arrBlockM_eq_set hm] at hb1
    obtain rfl := Except.ok.inj hb1
    obtain ⟨r4, hb2, he⟩ := exc_bind_eq_ok he
    obtain ⟨r5, hb3, he⟩ := exc_bind_eq_ok he
    cases he
    simp only [jvLookup]
    rw [arrBlockM_lookup_ne (by decide) hb3, arrBlockM_lookup_ne (by decide) hb2,
        jLookup_jsSet_self]
  · unfold transformIncomeData at hi
    simp only [jGet_ok hg, exc_ok_bind] at hi
    rw [hsd] at hi
    obtain ⟨r3, hb1, hi⟩ := exc_bind_eq_ok hi
    rw [arrBlockM_eq_set hm2] at hb1
    obtain rfl := Except.ok.inj hb1
    obtain ⟨r4, hb2, hi⟩ := exc_bind_eq_ok hi
    obtain ⟨r5, hb3, hi⟩ := exc_bind_eq_ok hi
    cases hi
    simp only [jvLookup]
    rw [arrBlockM_lookup_ne (by decide) hb3, arrBlockM_lookup_ne (by decide) hb2,
        jLookup_jsSet_self]

theorem legacyShapeWins_w :
    jvLookup (JVal.obj [("expenseData", JVal.bool true),
        ("expenseCategoryData", JVal.arr [JVal.obj [("name", JVal.str "B"),
          ("value", JVal.num 2), ("amount", JVal.num 2)]])]) "expenseCategoryData"
      = some (JVal.arr [JVal.obj [("name", JVal.str "B"),
          ("value", JVal.num 2), ("amount", JVal.num 2)]])
    ∧ jvLookup (JVal.obj [("incomeData", JVal.bool true),
        ("incomeSourceData", JVal.arr [JVal.obj [("name", JVal.str "D"),
          ("value", JVal.num 4), ("amount", JVal.num 4)]])]) "incomeSourceData"
      = some (JVal.arr [JVal.obj [("name", JVal.str "D"),
          ("value", JVal.num 4), ("amount", JVal.num 4)]]) :=
  legacyShapeWins
    (JVal.obj [("expensesByCategory", JVal.obj [("A", JVal.num 1)]),
      ("categories", JVal.arr [JVal.obj [("name", JVal.str "B"), ("amount", JVal.num 2)]]),
      ("incomeBySource", JVal.obj [("C", JVal.num 3)]),
      ("sources", JVal.arr [JVal.obj [("name", JVal.str "D"), ("amount", JVal.num 4)]])])
    [JVal.obj [("name", JVal.str "B"), ("amount", JVal.num 2)]]
    [JVal.obj [("name", JVal.str "D"), ("amount", JVal.num 4)]]
    [JVal.obj [("name", JVal.str "B"), ("value", JVal.num 2), ("amount", JVal.num 2)]]
    [JVal.obj [("name", JVal.str "D"), ("value", JVal.num 4), ("amount", JVal.num 4)]]
    (JVal.obj [("expenseData", JVal.bool true),
      ("expenseCategoryData", JVal.arr [JVal.obj [("name", JVal.str "B"),
        ("value", JVal.num 2), ("amount", JVal.num 2)]])])
    (JVal.obj [("incomeData", JVal.bool true),
      ("incomeSourceData", JVal.arr [JVal.obj [("name", JVal.str "D"),
        ("value", JVal.num 4), ("amount", JVal.num 4)]])])
    rfl rfl rfl rfl rfl rfl

/-- C5: with `requestType` and `graphData` both present, `processData`
dispatches on `requestType.toLowerCase()`: the four recognised names select
their normalizer, and any other value (e.g. `"unknown-type"`) falls back to
the compliance normalizer — the unrecognised string itself never causes a
throw, the dispatch simply applies `transformComplianceData`. -/
theorem dispatchByRequestType (rt : String) (g : JVal) :
    (jsLower rt = "compliance" → dispatchNormalizer rt g = transformComplianceData g)
    ∧ (jsLower rt = "expense" → dispatchNormalizer rt g = transformExpenseData g)
    ∧ (jsLower rt = "income" → dispatchNormalizer rt g = transformIncomeData g)
    ∧ (jsLower rt = "reporting" → dispatchNormalizer rt g = transformReportingData g)
    ∧ (jsLower rt ≠ "compliance" → jsLower rt ≠ "expense" → jsLower rt ≠ "income" →
        jsLower rt ≠ "reporting" → dispatchNormalizer rt g = transformComplianceData g) := by
  refine ⟨fun h1 => ?_, fun h2 => ?_, fun h3 => ?_, fun h4 => ?_,
    fun h1 h2 h3 h4 => ?_⟩
  · simp [dispatchNormalizer, h1]
  · simp [dispatchNormalizer, h2]
  · simp [dispatchNormalizer, h3]
  · simp [dispatchNormalizer, h4]
  · simp [dispatchNormalizer, h1, h2, h3, h4]

theorem dispatchByRequestType_w :
    dispatchNormalizer "Unknown-Type" (JVal.obj []) = transformComplianceData (JVal.obj []) :=
  (dispatchByRequestType "Unknown-Type" (JVal.obj [])).2.2.2.2
    (by decide) (by decide) (by decide) (by decide)

/-- C6: the compliance normalizer on
`{compliantTransactions: 42, nonCompliantTransactions: 8}` produces exactly
the claimed bar and pie datasets (plus the `complianceData` tag field). -/
theorem complianceRoundTrip :
    transformComplianceData (JVal.obj [("compliantTransactions", JVal.num 42),
        ("nonCompliantTransactions", JVal.num 8)])
      = .ok (JVal.obj [("complianceData", JVal.bool true),
          ("complianceBarData", JVal.arr [
             JVal.obj [("name", JVal.str "Compliant"), ("count", JVal.num 42), ("value", JVal.num 42)],
             JVal.obj [("name", JVal.str "Non-Compliant"), ("count", JVal.num 8), ("value", JVal.num 8)]]),
          ("compliancePieData", JVal.arr [
             JVal.obj [("name", JVal.str "Compliant Transactions"), ("value", JVal.num 42)],
             JVal.obj [("name", JVal.str "Non-Compliant Transactions"), ("value", JVal.num 8)]])]) := rfl

/-! ## A backtracking regular-expression engine

The extractors scan free text with JavaScript regexes in `while (exec)`
loops.  `Rx` covers exactly the features those patterns use (character
classes, sequencing, ordered alternation, greedy star/option, capturing
groups); `mrx` enumerates the match alternatives in the priority order of a
backtracking matcher, so its head is the JavaScript match. -/

/-- Regular-expression abstract syntax. -/
inductive Rx : Type where
  | eps
  | cls (p : Char → Bool)
  | seq (a b : Rx)
  | alt (a b : Rx)
  | star (a : Rx)
  | opt (a : Rx)
  | grp (n : Nat) (a : Rx)

/-- Captured groups: group number paired with the captured characters. -/
abbrev Caps := List (Nat × List Char)

/-- All ways a pattern can match a prefix of `s`, as (remaining suffix,
captures) pairs, in backtracking priority order.  The fuel (recursion depth
budget) drops by one on every call; along any call chain each step either
moves to a strict subpattern or, on the star-to-star continuation, strictly
shortens the text (a star iteration that consumes nothing ends the loop, as
the JavaScript engine does).  A chain is therefore never longer than
(pattern size + 1) * (text length + 1), and the fuel supplied by `tryFrom`
below exceeds that for every pattern in this file, so the fuel-exhaustion
branch is unreachable and the enumeration agrees with JavaScript
backtracking. -/
def mrx : Nat → Rx → List Char → List (List Char × Caps)
  | 0, _, _ => []
  | _ + 1, .eps, s => [(s, [])]
  | _ + 1, .cls _, [] => []
  | _ + 1, .cls p, c :: t => if p c then [(t, [])] else []
  | n + 1, .seq a b, s =>
    (mrx n a s).flatMap (fun pr =>
      (mrx n b pr.1).map (fun qr => (qr.1, pr.2 ++ qr.2)))
  | n + 1, .alt a b, s => mrx n a s ++ mrx n b s
  | n + 1, .opt a, s => mrx n a s ++ [(s, [])]
  | n + 1, .star a, s =>
    ((mrx n a s).flatMap (fun pr =>
      if pr.1.length < s.length then
        (mrx n (.star a) pr.1).map (fun qr => (qr.1, pr.2 ++ qr.2))
      else [(pr.1, pr.2)])) ++ [(s, [])]
  | n + 1, .grp i a, s =>
    (mrx n a s).map (fun pr => (pr.1, pr.2 ++ [(i, s.take (s.length - pr.1.length))]))

/-- Recursion-depth budget ample for every pattern in this file (each has
fewer than 100 nodes). -/
def mrxFuel (s : List Char) : Nat := (s.length + 2) * 100

/-- Leftmost match: try the pattern at each successive start position; on
success return the captures and the suffix following the matched text. -/
def tryFrom (rx : Rx) (s : List Char) : Option (Caps × List Char) :=
  match (mrx (mrxFuel s) rx s).head? with
  | some pr => some (pr.2, pr.1)
  | none =>
    match s with
    | [] => none
    | _ :: t => tryFrom rx t

/-- The `while ((m = re.exec(text)) !== null)` loop for a global regex:
successive leftmost matches, each resuming after the previous match.  Every
iteration strictly shortens the remaining text (a match that consumed
nothing still advances one character — the patterns below can never match
the empty string), so `length + 1` rounds always complete the scan. -/
def execAllF (rx : Rx) : Nat → List Char → List Caps
  | 0, _ => []
  | n + 1, s =>
    match tryFrom rx s with
    | none => []
    | some (caps, rest) =>
      if rest.length < s.length then caps :: execAllF rx n rest
      else
        match s with
        | [] => [caps]
        | _ :: t => caps :: execAllF rx n t

/-- All matches of a global regex over a text, in document order. -/
def execAll (rx : Rx) (s : List Char) : List Caps :=
  execAllF rx (s.length + 1) s

/-- Group lookup in a capture list (an unmatched group is `none`, like an
`undefined` JavaScript capture). -/
def capGet (caps : Caps) (n : Nat) : Option (List Char) :=
  (caps.find? (fun p => p.1 == n)).map (fun p => p.2)

/-- Literal character. -/
def litC (c : Char) : Rx := .cls (fun x => x == c)

/-- Case-insensitive literal character (for patterns with the `i` flag). -/
def litCI (c : Char) : Rx := .cls (fun x => jsCharLower x == c)

/-- Sequence a list of patterns. -/
def rseq (l : List Rx) : Rx := l.foldr Rx.seq Rx.eps

/-- Greedy `+`. -/
def rplus (a : Rx) : Rx := .seq a (.star a)

/-- `\s` -/
def clsSpace : Rx := .cls isSpaceC

/-- `\d` -/
def clsDigit : Rx := .cls Char.isDigit

/-- `[\d,]` -/
def clsDigitComma : Rx := .cls (fun c => c.isDigit || c == ',')

/-- `[A-Za-z\s&]` -/
def clsWSA : Rx := .cls (fun c => c.isAlpha || isSpaceC c || c == '&')

/-- `.` (anything but a line terminator) -/
def clsDot : Rx := .cls (fun c => !(c == '\n') && !(c == '\r'))

/-- `[^:]` -/
def clsNotColon : Rx := .cls (fun c => !(c == ':'))

/-- `[^(]` -/
def clsNotLParen : Rx := .cls (fun c => !(c == '('))

/-- `[^)]` -/
def clsNotRParen : Rx := .cls (fun c => !(c == ')'))

/-- `[\d,]+\.?\d*` — the numeric part shared by the metric patterns. -/
def numPat : Rx := rseq [rplus clsDigitComma, .opt (litC '.'), .star clsDigit]

/-- `([A-Za-z\s&]+):\s*\$?([\d,]+\.?\d*)\s*(?:%|dollars?|USD)?` -/
def kvPat1 : Rx := rseq [.grp 1 (rplus clsWSA), litC ':', .star clsSpace,
  .opt (litC '$'), .grp 2 numPat, .star clsSpace,
  .opt (.alt (litC '%') (.alt
    (rseq [litCI 'd', litCI 'o', litCI 'l', litCI 'l', litCI 'a', litCI 'r',
      .opt (litCI 's')])
    (rseq [litCI 'u', litCI 's', litCI 'd'])))]

/-- `([A-Za-z\s&]+)\s*[:\-]\s*\$?([\d,]+\.?\d*)` -/
def kvPat2 : Rx := rseq [.grp 1 (rplus clsWSA), .star clsSpace,
  .cls (fun c => c == ':' || c == '-'), .star clsSpace, .opt (litC '$'),
  .grp 2 numPat]

/-- `\*\*([A-Za-z\s&]+)\*\*:\s*\$?([\d,]+\.?\d*)` -/
def kvPat3 : Rx := rseq [litC '*', litC '*', .grp 1 (rplus clsWSA), litC '*',
  litC '*', litC ':', .star clsSpace, .opt (litC '$'), .grp 2 numPat]

/-- `-\s*([A-Za-z\s&]+):\s*\$?([\d,]+\.?\d*)` -/
def kvPat4 : Rx := rseq [litC '-', .star clsSpace, .grp 1 (rplus clsWSA),
  litC ':', .star clsSpace, .opt (litC '$'), .grp 2 numPat]

/-- `([A-Za-z\s&]+)\s*[:\-]\s*\$?([\d,]+\.?\d*)\s*\(` -/
def kvPat5 : Rx := rseq [.grp 1 (rplus clsWSA), .star clsSpace,
  .cls (fun c => c == ':' || c == '-'), .star clsSpace, .opt (litC '$'),
  .grp 2 numPat, .star clsSpace, litC '(']

/-- The ordered `keyValuePatterns` array of the key-value extractor. -/
def kvPatterns : List Rx := [kvPat1, kvPat2, kvPat3, kvPat4, kvPat5]

/-- `([A-Za-z\s&]+)?\s*([\d,]+\.?\d*)\s*%` -/
def percentPat : Rx := rseq [.opt (.grp 1 (rplus clsWSA)), .star clsSpace,
  .grp 2 numPat, .star clsSpace, litC '%']

/-- `([A-Za-z\s&]+)?\s*\$([\d,]+\.?\d*)` -/
def currencyPat : Rx := rseq [.opt (.grp 1 (rplus clsWSA)), .star clsSpace,
  litC '$', .grp 2 numPat]

/-- `\|(.+)\|\s*\n\|[-\s|:]+\|\s*\n((?:\|.+\|\s*\n?)+)` -/
def tablePat : Rx := rseq [litC '|', .grp 1 (rplus clsDot), litC '|',
  .star clsSpace, litC '\n', litC '|',
  rplus (.cls (fun c => c == '-' || isSpaceC c || c == '|' || c == ':')),
  litC '|', .star clsSpace, litC '\n',
  .grp 2 (rplus (rseq [litC '|', rplus clsDot, litC '|', .star clsSpace,
    .opt (litC '\n')]))]

/-- `-\s*([^:]+)\s*\(([^)]+)\):\s*([^(]+)\s*\(([^)]+)\)` -/
def checklistPat : Rx := rseq [litC '-', .star clsSpace,
  .grp 1 (rplus clsNotColon), .star clsSpace, litC '(',
  .grp 2 (rplus clsNotRParen), litC ')', litC ':', .star clsSpace,
  .grp 3 (rplus clsNotLParen), .star clsSpace, litC '(',
  .grp 4 (rplus clsNotRParen), litC ')']

/-- `-\s*([^:]+)\s*\(([^)]+)\):\s*(.+)` -/
def regulationPat : Rx := rseq [litC '-', .star clsSpace,
  .grp 1 (rplus clsNotColon), .star clsSpace, litC '(',
  .grp 2 (rplus clsNotRParen), litC ')', litC ':', .star clsSpace,
  .grp 3 (rplus clsDot)]

/-- `(\d{4}-\d{2}-\d{2})` -/
def datePat : Rx := .grp 1 (rseq [clsDigit, clsDigit, clsDigit, clsDigit,
  litC '-', clsDigit, clsDigit, litC '-', clsDigit, clsDigit])

/-! ## The text extractors -/

/-- A coerced markdown-table cell. -/
inductive CellVal : Type where
  | num (q : ℚ)
  | str (s : List Char)
deriving DecidableEq

/-- A parsed markdown table: headers plus row records. -/
structure MDTable : Type where
  headers : List (List Char)
  rows : List (List (List Char × CellVal))
deriving DecidableEq

/-- JavaScript-object insertion for row records (a duplicate header
overwrites in place). -/
def upsertRow : List (List Char × CellVal) → List Char → CellVal →
    List (List Char × CellVal)
  | [], k, v => [(k, v)]
  | (k', v') :: t, k, v =>
    if k' = k then (k', v) :: t else (k', v') :: upsertRow t k v

/-- One row record: every header indexes its cell (missing cells default to
the empty string) and numeric-looking cells are coerced. -/
def buildRow (headers cells : List (List Char)) :
    List (List Char × CellVal) :=
  (withIdx headers).foldl (fun rd p =>
    let cellValue := cells.getD p.1 []
    let stripped := cellValue.filter (fun c => c.isDigit || c == '.' || c == '-')
    let v : CellVal :=
      match jsParseFloat stripped with
      | some q => if (jsTrimL cellValue).isEmpty then .str cellValue else .num q
      | none => .str cellValue
    upsertRow rd p.2 v) []

/-- The body of the `while ((match = tableRegex.exec(text)) !== null)` loop:
turn one regex match into a table, or skip it (`continue` on empty headers,
and the `rows.length > 0` retention check). -/
def tableOfMatch (caps : Caps) : Option MDTable :=
  let headerRow := (capGet caps 1).getD []
  let rowsBlock := (capGet caps 2).getD []
  let dataRows := (splitOnCharL '\n' (jsTrimL rowsBlock)).filter
    (fun row => !(jsTrimL row).isEmpty)
  let headers := ((splitOnCharL '|' headerRow).map jsTrimL).filter
    (fun h => !h.isEmpty)
  if headers.isEmpty then none
  else
    let rows := (dataRows.map (fun row =>
      let cells := ((splitOnCharL '|' row).map jsTrimL).filter
        (fun c => !c.isEmpty)
      buildRow headers cells)).filter (fun r => 0 < r.length)
    if 0 < rows.length then some ⟨headers, rows⟩ else none

/-- `parseMarkdownTables` of `ChatVisualization.tsx`. -/
def parseMarkdownTables (text : String) : List MDTable :=
  (execAll tablePat text.data).filterMap tableOfMatch

/-- A parsed checklist record. -/
structure ChecklistItem : Type where
  id : List Char
  name : List Char
  status : List Char
  statusType : List Char
  date : Option (List Char)
  dateInfo : List Char
deriving DecidableEq

/-- A parsed regulation record. -/
structure RegItem : Type where
  id : List Char
  name : List Char
  description : List Char
deriving DecidableEq

/-- The completed / in-progress / pending counters. -/
structure StatusBreakdown : Type where
  completed : Nat
  inProgress : Nat
  pending : Nat
deriving DecidableEq

/-- Result of the compliance-record extractor. -/
structure ComplianceData : Type where
  checklists : List ChecklistItem
  regulations : List RegItem
  statusBreakdown : StatusBreakdown
deriving DecidableEq

/-- The single if/else chain of the source that derives the status type and
bumps exactly one counter: case-insensitive substring "completed" wins,
then "in progress"/"in-progress", else pending. -/
def classifyStep (sb : StatusBreakdown) (status : List Char) :
    List Char × StatusBreakdown :=
  if containsL (toLowerL status) ("completed".data) then
    ("completed".data, { sb with completed := sb.completed + 1 })
  else if containsL (toLowerL status) ("in progress".data)
      || containsL (toLowerL status) ("in-progress".data) then
    ("inProgress".data, { sb with inProgress := sb.inProgress + 1 })
  else
    ("pending".data, { sb with pending := sb.pending + 1 })

/-- Process one checklist match. -/
def checklistStep (cd : ComplianceData) (caps : Caps) : ComplianceData :=
  let name := jsTrimL ((capGet caps 1).getD [])
  let id := jsTrimL ((capGet caps 2).getD [])
  let status := jsTrimL ((capGet caps 3).getD [])
  let dateInfo := jsTrimL ((capGet caps 4).getD [])
  let cls := classifyStep cd.statusBreakdown status
  let date := ((execAll datePat dateInfo).head?).bind (fun c => capGet c 1)
  { cd with
    checklists := cd.checklists ++ [⟨id, name, status, cls.1, date, dateInfo⟩],
    statusBreakdown := cls.2 }

/-- Process one regulation match. -/
def regulationStep (cd : ComplianceData) (caps : Caps) : ComplianceData :=
  { cd with
    regulations := cd.regulations ++ [⟨jsTrimL ((capGet caps 2).getD []),
      jsTrimL ((capGet caps 1).getD []), jsTrimL ((capGet caps 3).getD [])⟩] }

/-- `parseComplianceData` of `ChatVisualization.tsx`. -/
def parseComplianceData (text : String) : ComplianceData :=
  let cd0 : ComplianceData := ⟨[], [], ⟨0, 0, 0⟩⟩
  let cd1 := (execAll checklistPat text.data).foldl checklistStep cd0
  (execAll regulationPat text.data).foldl regulationStep cd1

/-- A retained key-value pair. -/
structure KV : Type where
  key : List Char
  value : ℚ
deriving DecidableEq

/-- A retained percentage observation. -/
structure Pct : Type where
  name : List Char
  value : ℚ
deriving DecidableEq

/-- Result of the metric extractor.  `currencyValues` and `numbers` are
initialised empty and never appended to by the source. -/
structure Metrics : Type where
  keyValuePairs : List KV
  percentages : List Pct
  currencyValues : List JVal
  numbers : List JVal

/-- `key.replace(/\*\*/g, '')`: drop the markdown bold markers. -/
def stripBold : List Char → List Char
  | '*' :: '*' :: t => stripBold t
  | c :: t => c :: stripBold t
  | [] => []

/-- The validate / deduplicate / push step of the key-value loop body:
reject when the value is not positive or the label is too short, and drop
candidates whose label case-insensitively equals a retained one (first
occurrence wins). -/
def kvPush (acc : List KV) (key : List Char) (value : ℚ) : List KV :=
  if 0 < value ∧ 2 < key.length then
    if acc.any (fun kv => toLowerL kv.key == toLowerL key) then acc
    else acc ++ [⟨key, value⟩]
  else acc

/-- One key-value candidate (loop body of the five `keyValuePatterns`
scans). -/
def kvStep (acc : List KV) (caps : Caps) : List KV :=
  let key := stripBold (jsTrimL ((capGet caps 1).getD []))
  let valueStr := ((capGet caps 2).getD []).filter (fun c => !(c == ','))
  match jsParseFloat valueStr with
  | none => acc
  | some value => kvPush acc key value

/-- One percentage candidate. -/
def pctStep (acc : List Pct) (caps : Caps) : List Pct :=
  let context :=
    match capGet caps 1 with
    | some s =>
      let t := jsTrimL s
      if t.isEmpty then "Percentage".data else t
    | none => "Percentage".data
  let valueStr := ((capGet caps 2).getD []).filter (fun c => !(c == ','))
  match jsParseFloat valueStr with
  | none => acc
  | some value =>
    if 0 ≤ value ∧ value ≤ 100 then acc ++ [⟨context, value⟩] else acc

/-- The fold-into-key-value step of the currency loop body: the observation
is pushed only when positive, no existing pair's label overlaps it as a
substring (either direction, case-insensitively), and the label is long
enough. -/
def curPush (acc : List KV) (context : List Char) (value : ℚ) : List KV :=
  if 0 < value then
    if acc.any (fun kv => containsL (toLowerL kv.key) (toLowerL context)
        || containsL (toLowerL context) (toLowerL kv.key)) then acc
    else if 2 < context.length then acc ++ [⟨context, value⟩] else acc
  else acc

/-- One currency candidate (loop body of the currency scan). -/
def curStep (acc : List KV) (caps : Caps) : List KV :=
  let context :=
    match capGet caps 1 with
    | some s =>
      let t := jsTrimL s
      if t.isEmpty then "Amount".data else t
    | none => "Amount".data
  let valueStr := ((capGet caps 2).getD []).filter (fun c => !(c == ','))
  match jsParseFloat valueStr with
  | none => acc
  | some value => curPush acc context value

/-- Stable insertion for the descending-by-value sort (the source sorts with
the comparator `(a, b) => b.value - a.value` under the stable ES2019
`Array.prototype.sort`; a stable sorted order is unique, and this insertion
sort realises it). -/
def insertDesc (x : KV) : List KV → List KV
  | [] => [x]
  | y :: t => if y.value ≤ x.value then x :: y :: t else y :: insertDesc x t

/-- Stable descending sort by value. -/
def sortDesc (l : List KV) : List KV := l.foldr insertDesc []

/-- `extractMetricsFromText` of `ChatVisualization.tsx`: the five key-value
patterns feed one deduplicated list, percentages are collected separately,
currency matches are folded into the key-value list, and the key-value list
is finally sorted descending by value and truncated to ten entries. -/
def extractMetricsFromText (text : String) : Metrics :=
  let s := text.data
  let kvCands := (kvPatterns.map (fun p => execAll p s)).flatten
  let kvs0 := kvCands.foldl kvStep []
  let pcts := (execAll percentPat s).foldl pctStep []
  let kvs1 := (execAll currencyPat s).foldl curStep kvs0
  { keyValuePairs := (sortDesc kvs1).take 10
    percentages := pcts
    currencyValues := []
    numbers := [] }

/-- Chart-data record assembled from extracted metrics; a field is `none`
when the corresponding metric list is empty (the key is absent). -/
structure ChartData : Type where
  barChartData : Option (List JVal)
  pieChartData : Option (List JVal)

/-- The JavaScript object a percentage record is: `{name, value}`. -/
def pctToJVal (p : Pct) : JVal :=
  .obj [("name", .str ⟨p.name⟩), ("value", .num p.value)]

/-- `metricsToChartData` of `ChatVisualization.tsx`.  The pie callback
`(val, idx) => ({name: ..., value: val})` receives the whole percentage
record as `val`, so each pie datum's `value` field holds that record (an
object), not its number. -/
def metricsToChartData (m : Metrics) : ChartData :=
  { barChartData :=
      if 0 < m.keyValuePairs.length then
        some (m.keyValuePairs.map (fun kv =>
          JVal.obj [("name", .str ⟨kv.key⟩), ("value", .num kv.value)]))
      else none
    pieChartData :=
      if 0 < m.percentages.length then
        some ((withIdx m.percentages).map (fun p =>
          JVal.obj [("name", .str ("Metric " ++ toString (p.1 + 1))),
                    ("value", pctToJVal p.2)]))
      else none }

/-! ## Claim theorems about the extractors -/

theorem foldlRec {α β : Type} (P : β → Prop) (step : β → α → β) (l : List α)
    (b : β) (hb : P b) (hs : ∀ b a, P b → P (step b a)) : P (l.foldl step b) := by
  induction l generalizing b with
  | nil => exact hb
  | cons x t ih => exact ih _ (hs b x hb)

theorem isPrefixL_refl (s : List Char) : isPrefixL s s = true := by
  induction s with
  | nil => rfl
  | cons c t ih => simp [isPrefixL, ih]

theorem containsL_refl (s : List Char) : containsL s s = true := by
  cases s with
  | nil => rfl
  | cons c t => simp [containsL, isPrefixL_refl]

/-- The retained-pair predicate of the key-value extractor. -/
def kvGood (e : KV) : Prop := 0 < e.value ∧ 2 < e.key.length

/-- No two entries carry case-insensitively equal labels. -/
def kvDistinct (l : List KV) : Prop :=
  l.Pairwise (fun a b => toLowerL a.key ≠ toLowerL b.key)

theorem kvPush_inv {acc : List KV} {key : List Char} {value : ℚ}
    (h : (∀ e ∈ acc, kvGood e) ∧ kvDistinct acc) :
    (∀ e ∈ kvPush acc key value, kvGood e) ∧ kvDistinct (kvPush acc key value) := by
  obtain ⟨hg, hd⟩ := h
  unfold kvPush
  split
  · rename_i hcond
    split
    · exact ⟨hg, hd⟩
    · rename_i hany
      constructor
      · intro e he
        rcases List.mem_append.mp he with he1 | he2
        · exact hg e he1
        · rw [List.mem_singleton] at he2
          subst he2
          exact ⟨hcond.1, hcond.2⟩
      · unfold kvDistinct
        rw [List.pairwise_append]
        refine ⟨hd, List.pairwise_singleton _ _, ?_⟩
        intro a ha b hb
        rw [List.mem_singleton] at hb
        subst hb
        intro heq
        apply hany
        rw [List.any_eq_true]
        exact ⟨a, ha, beq_iff_eq.mpr heq⟩
  · exact ⟨hg, hd⟩

theorem curPush_inv {acc : List KV} {context : List Char} {value : ℚ}
    (h : (∀ e ∈ acc, kvGood e) ∧ kvDistinct acc) :
    (∀ e ∈ curPush acc context value, kvGood e) ∧ kvDistinct (curPush acc context value) := by
  obtain ⟨hg, hd⟩ := h
  unfold curPush
  split
  · rename_i hpos
    split
    · exact ⟨hg, hd⟩
    · rename_i hany
      split
      · rename_i hlen
        constructor
        · intro e he
          rcases List.mem_append.mp he with he1 | he2
          · exact hg e he1
          · rw [List.mem_singleton] at he2
            subst he2
            exact ⟨hpos, hlen⟩
        · unfold kvDistinct
          rw [List.pairwise_append]
          refine ⟨hd, List.pairwise_singleton _ _, ?_⟩
          intro a ha b hb
          rw [List.mem_singleton] at hb
          subst hb
          intro heq
          apply hany
          rw [List.any_eq_true]
          refine ⟨a, ha, ?_⟩
          rw [Bool.or_eq_true]
          left
          rw [heq]
          exact containsL_refl _
      · exact ⟨hg, hd⟩
  · exact ⟨hg, hd⟩

theorem kvStep_eq (acc : List KV) (caps : Caps) :
    kvStep acc caps
      = match jsParseFloat (((capGet caps 2).getD []).filter (fun c => !(c == ','))) with
        | none => acc
        | some value => kvPush acc (stripBold (jsTrimL ((capGet caps 1).getD []))) value := rfl

theorem curStep_eq (acc : List KV) (caps : Caps) :
    curStep acc caps
      = match jsParseFloat (((capGet caps 2).getD []).filter (fun c => !(c == ','))) with
        | none => acc
        | some value => curPush acc
            (match capGet caps 1 with
             | some s => if (jsTrimL s).isEmpty then "Amount".data else jsTrimL s
             | none => "Amount".data) value := rfl

theorem kvStep_inv {acc : List KV} (caps : Caps)
    (h : (∀ e ∈ acc, kvGood e) ∧ kvDistinct acc) :
    (∀ e ∈ kvStep acc caps, kvGood e) ∧ kvDistinct (kvStep acc caps) := by
  rw [kvStep_eq]
  cases jsParseFloat (((capGet caps 2).getD []).filter (fun c => !(c == ','))) with
  | none => exact h
  | some value => exact kvPush_inv h

theorem curStep_inv {acc : List KV} (caps : Caps)
    (h : (∀ e ∈ acc, kvGood e) ∧ kvDistinct acc) :
    (∀ e ∈ curStep acc caps, kvGood e) ∧ kvDistinct (curStep acc caps) := by
  rw [curStep_eq]
  cases jsParseFloat (((capGet caps 2).getD []).filter (fun c => !(c == ','))) with
  | none => exact h
  | some value => exact curPush_inv h

theorem insertDesc_perm (x : KV) (l : List KV) :
    List.Perm (insertDesc x l) (x :: l) := by
  induction l with
  | nil => exact List.Perm.refl _
  | cons y t ih =>
    unfold insertDesc
    split
    · exact List.Perm.refl _
    · exact (ih.cons y).trans (List.Perm.swap x y t)

theorem sortDesc_perm (l : List KV) : List.Perm (sortDesc l) l := by
  induction l with
  | nil => exact List.Perm.refl _
  | cons x t ih => exact (insertDesc_perm x (sortDesc t)).trans (ih.cons x)

theorem insertDesc_sorted {l : List KV} (x : KV)
    (h : l.Pairwise (fun a b => b.value ≤ a.value)) :
    (insertDesc x l).Pairwise (fun a b => b.value ≤ a.value) := by
  induction l with
  | nil => simp [insertDesc]
  | cons y t ih =>
    rw [List.pairwise_cons] at h
    obtain ⟨hy, ht⟩ := h
    unfold insertDesc
    split
    · rename_i hle
      rw [List.pairwise_cons]
      refine ⟨?_, List.pairwise_cons.mpr ⟨hy, ht⟩⟩
      intro b hb
      rcases List.mem_cons.mp hb with rfl | hbt
      · exact hle
      · exact le_trans (hy b hbt) hle
    · rename_i hgt
      rw [List.pairwise_cons]
      refine ⟨?_, ih ht⟩
      intro b hb
      rcases List.mem_cons.mp ((insertDesc_perm x t).mem_iff.mp hb) with rfl | hbt
      · exact le_of_lt (lt_of_not_le hgt)
      · exact hy b hbt

theorem sortDesc_sorted (l : List KV) :
    (sortDesc l).Pairwise (fun a b => b.value ≤ a.value) := by
  induction l with
  | nil => simp [sortDesc]
  | cons x t ih => exact insertDesc_sorted x ih

theorem kv_final_props {l : List KV} (hg : ∀ e ∈ l, kvGood e) (hd : kvDistinct l) :
    kvDistinct ((sortDesc l).take 10)
    ∧ (∀ e ∈ (sortDesc l).take 10, kvGood e)
    ∧ ((sortDesc l).take 10).Pairwise (fun a b => b.value ≤ a.value)
    ∧ ((sortDesc l).take 10).length ≤ 10 := by
  have hperm := sortDesc_perm l
  have hsub : List.Sublist ((sortDesc l).take 10) (sortDesc l) :=
    List.take_sublist _ _
  have hsym : Symmetric (fun a b : KV => toLowerL a.key ≠ toLowerL b.key) :=
    fun a b hne he => hne he.symm
  refine ⟨?_, ?_, ?_, ?_⟩
  · exact List.Pairwise.sublist hsub ((hperm.pairwise_iff (fun h => hsym h)).mpr hd)
  · intro e he
    exact hg e (hperm.mem_iff.mp (hsub.subset he))
  · exact List.Pairwise.sublist hsub (sortDesc_sorted l)
  · exact List.length_take_le 10 (sortDesc l)

/-- C3: for every input text, the retained key-value pairs have pairwise
case-insensitively distinct labels, every entry has a positive value and a
label longer than two characters, the list is sorted descending by value,
and it holds at most ten entries. -/
theorem extractMetrics_kv_props (t : String) :
    kvDistinct (extractMetricsFromText t).keyValuePairs
    ∧ (∀ e ∈ (extractMetricsFromText t).keyValuePairs, 0 < e.value ∧ 2 < e.key.length)
    ∧ (extractMetricsFromText t).keyValuePairs.Pairwise (fun a b => b.value ≤ a.value)
    ∧ (extractMetricsFromText t).keyValuePairs.length ≤ 10 := by
  have h0 := foldlRec (fun acc => (∀ e ∈ acc, kvGood e) ∧ kvDistinct acc)
    kvStep ((kvPatterns.map (fun p => execAll p t.data)).flatten) []
    ⟨by simp, List.Pairwise.nil⟩ (fun b a hb => kvStep_inv a hb)
  have h1 := foldlRec (fun acc => (∀ e ∈ acc, kvGood e) ∧ kvDistinct acc)
    curStep (execAll currencyPat t.data) _ h0 (fun b a hb => curStep_inv a hb)
  have he : (extractMetricsFromText t).keyValuePairs
      = (sortDesc ((execAll currencyPat t.data).foldl curStep
          (((kvPatterns.map (fun p => execAll p t.data)).flatten).foldl kvStep []))).take 10 := rfl
  rw [he]
  have h2 := kv_final_props h1.1 h1.2
  exact ⟨h2.1, fun e hme => (h2.2.1 e hme), h2.2.2.1, h2.2.2.2⟩

theorem extractMetrics_kv_props_w :
    0 < (⟨"Rev".data, 9⟩ : KV).value ∧ 2 < (⟨"Rev".data, 9⟩ : KV).key.length :=
  (extractMetrics_kv_props "Rev: 9").2.1 ⟨"Rev".data, 9⟩ (by decide)

/-- The status-classification rule: case-insensitive substring "completed"
wins, then "in progress"/"in-progress", anything else is pending. -/
def checklistRule (item : ChecklistItem) : Prop :=
  item.statusType = (if containsL (toLowerL item.status) ("completed".data)
    then "completed".data
    else if containsL (toLowerL item.status) ("in progress".data)
        || containsL (toLowerL item.status) ("in-progress".data)
    then "inProgress".data
    else "pending".data)

/-- The checklist-fold invariant: counters sum to the item count and every
item is classified by the rule. -/
def complianceInv (cd : ComplianceData) : Prop :=
  (cd.statusBreakdown.completed + cd.statusBreakdown.inProgress
    + cd.statusBreakdown.pending = cd.checklists.length)
  ∧ ∀ item ∈ cd.checklists, checklistRule item

theorem classifyStep_fst (sb : StatusBreakdown) (status : List Char) :
    (classifyStep sb status).1
      = (if containsL (toLowerL status) ("completed".data) then "completed".data
         else if containsL (toLowerL status) ("in progress".data)
             || containsL (toLowerL status) ("in-progress".data) then "inProgress".data
         else "pending".data) := by
  unfold classifyStep
  split
  · rfl
  · split <;> rfl

theorem classifyStep_sum (sb : StatusBreakdown) (status : List Char) :
    (classifyStep sb status).2.completed + (classifyStep sb status).2.inProgress
      + (classifyStep sb status).2.pending
    = sb.completed + sb.inProgress + sb.pending + 1 := by
  unfold classifyStep
  split
  · simp only []
    omega
  · split
    · simp only []
      omega
    · simp only []
      omega

theorem checklistStep_breakdown (cd : ComplianceData) (caps : Caps) :
    (checklistStep cd caps).statusBreakdown
      = (classifyStep cd.statusBreakdown (jsTrimL ((capGet caps 3).getD []))).2 := rfl

theorem checklistStep_checklists (cd : ComplianceData) (caps : Caps) :
    (checklistStep cd caps).checklists
      = cd.checklists ++ [⟨jsTrimL ((capGet caps 2).getD []),
          jsTrimL ((capGet caps 1).getD []),
          jsTrimL ((capGet caps 3).getD []),
          (classifyStep cd.statusBreakdown (jsTrimL ((capGet caps 3).getD []))).1,
          ((execAll datePat (jsTrimL ((capGet caps 4).getD []))).head?).bind
            (fun c => capGet c 1),
          jsTrimL ((capGet caps 4).getD [])⟩] := rfl

theorem checklistStep_inv {cd : ComplianceData} (caps : Caps)
    (h : complianceInv cd) : complianceInv (checklistStep cd caps) := by
  obtain ⟨hsum, hrule⟩ := h
  unfold complianceInv
  rw [checklistStep_breakdown, checklistStep_checklists, classifyStep_sum,
    List.length_append]
  constructor
  · simp [hsum]
  · intro item him
    rcases List.mem_append.mp him with h1 | h2
    · exact hrule item h1
    · rw [List.mem_singleton] at h2
      subst h2
      exact classifyStep_fst _ _

theorem regulationStep_inv {cd : ComplianceData} (caps : Caps)
    (h : complianceInv cd) : complianceInv (regulationStep cd caps) := h

/-- C7: every checklist match is assigned exactly one status category — by
the rule "completed" substring → completed, "in progress"/"in-progress" →
inProgress, anything else → pending — and the three StatusBreakdown counters
sum to the number of checklist items extracted. -/
theorem complianceStatus_exhaustive (t : String) :
    ((parseComplianceData t).statusBreakdown.completed
      + (parseComplianceData t).statusBreakdown.inProgress
      + (parseComplianceData t).statusBreakdown.pending
      = (parseComplianceData t).checklists.length)
    ∧ ∀ item ∈ (parseComplianceData t).checklists,
        (item.statusType = "completed".data ∨ item.statusType = "inProgress".data
          ∨ item.statusType = "pending".data)
        ∧ checklistRule item := by
  have h1 : complianceInv (parseComplianceData t) :=
    foldlRec complianceInv regulationStep (execAll regulationPat t.data) _
      (foldlRec complianceInv checklistStep (execAll checklistPat t.data)
        ⟨[], [], ⟨0, 0, 0⟩⟩ ⟨rfl, by simp⟩ (fun b a hb => checklistStep_inv a hb))
      (fun b a hb => regulationStep_inv a hb)
  refine ⟨h1.1, fun item him => ⟨?_, h1.2 item him⟩⟩
  have hr := h1.2 item him
  unfold checklistRule at hr
  split at hr
  · exact Or.inl hr
  · split at hr
    · exact Or.inr (Or.inl hr)
    · exact Or.inr (Or.inr hr)

theorem complianceStatus_exhaustive_w :
    ((⟨"C1".data, "A".data, "Completed".data, "completed".data,
        some ("2024-01-02".data), "2024-01-02".data⟩ : ChecklistItem).statusType
        = "completed".data
      ∨ (⟨"C1".data, "A".data, "Completed".data, "completed".data,
        some ("2024-01-02".data), "2024-01-02".data⟩ : ChecklistItem).statusType
        = "inProgress".data
      ∨ (⟨"C1".data, "A".data, "Completed".data, "completed".data,
        some ("2024-01-02".data), "2024-01-02".data⟩ : ChecklistItem).statusType
        = "pending".data) :=
  ((complianceStatus_exhaustive "- A (C1): Completed (2024-01-02)").2
    ⟨"C1".data, "A".data, "Completed".data, "completed".data,
      some ("2024-01-02".data), "2024-01-02".data⟩ (by decide)).1

/-- C8: on the input "50%" the extractor records the percentage as the
record {name := "Percentage", value := 50}, and `metricsToChartData` stores
that whole record — a JavaScript object, not a number — in the pie datum's
`value` field, so the pie data synthesized from percentages does not carry
numeric value fields. -/
theorem pieValueIsRecordObject :
    (metricsToChartData (extractMetricsFromText "50%")).pieChartData
      = some [JVal.obj [("name", JVal.str "Metric 1"),
          ("value", JVal.obj [("name", JVal.str "Percentage"), ("value", JVal.num 50)])]]
    ∧ isNumT (JVal.obj [("name", JVal.str "Percentage"), ("value", JVal.num 50)]) = false :=
  ⟨rfl, rfl⟩

/-- C9 counterexample: the table "| A |\n|---|\n| |" has one data row with
no resolvable (non-empty) cell value, yet that row is retained — bound to
the empty-string value for its header — because the row record always
receives one key per header, making the row-level filter vacuous. -/
theorem emptyRowRetained :
    parseMarkdownTables "| A |\n|---|\n| |\n"
      = [⟨[['A']], [[(['A'], CellVal.str [])]]⟩]
    ∧ ([[(['A'], CellVal.str [])]] : List (List (List Char × CellVal))) ≠ [] :=
  ⟨by decide, by decide⟩

/-- C9 (amended): a table is retained only when its header list is non-empty
and it has at least one data row; every retained row record is non-empty
(one entry per distinct header) — rows whose cells yield no resolvable value
are retained with empty-string values, never dropped. -/
theorem tableRetention (t : String) :
    ∀ tb ∈ parseMarkdownTables t,
      tb.headers ≠ [] ∧ tb.rows ≠ [] ∧ ∀ row ∈ tb.rows, row ≠ [] := by
  intro tb htb
  unfold parseMarkdownTables at htb
  obtain ⟨caps, hcaps, hf⟩ := List.mem_filterMap.mp htb
  simp only [tableOfMatch] at hf
  split at hf
  · cases hf
  · rename_i hheaders
    split at hf
    · rename_i hrows
      injection hf with hf2
      subst hf2
      refine ⟨?_, ?_, ?_⟩
      · intro hnil
        apply hheaders
        have he : (List.filter (fun h => !h.isEmpty)
            (List.map jsTrimL (splitOnCharL '|' ((capGet caps 1).getD [])))) = [] := hnil
        rw [he]
        rfl
      · exact List.length_pos.mp hrows
      · intro row hrow
        have hp := (List.mem_filter.mp hrow).2
        exact List.length_pos.mp (of_decide_eq_true hp)
    · cases hf

theorem tableRetention_w :
    ([['A']] : List (List Char)) ≠ []
    ∧ ([[(['A'], CellVal.num 1)]] : List (List (List Char × CellVal))) ≠ []
    ∧ ([(['A'], CellVal.num 1)] : List (List Char × CellVal)) ≠ [] := by
  have h := tableRetention "| A |\n|---|\n| 1 |\n"
    ⟨[['A']], [[(['A'], CellVal.num 1)]]⟩ (by decide)
  exact ⟨h.1, h.2.1, h.2.2 _ (by decide)⟩

/-- C10: the `currencyValues` field of the extracted metrics is initialised
empty and never appended to — currency matches are folded into
`keyValuePairs` instead — so it is the empty list on every input and any
downstream non-emptiness test on it is never satisfied. -/
theorem currencyValuesNeverPopulated (t : String) :
    (extractMetricsFromText t).currencyValues = []
    ∧ (extractMetricsFromText t).currencyValues.length = 0 :=
  ⟨rfl, rfl⟩

theorem currencyValuesNeverPopulated_w :
    (extractMetricsFromText "Total: $5").currencyValues = [] :=
  (currencyValuesNeverPopulated "Total: $5").1
